import Mathlib

/-!
Verification of the turbolift `update-prs` command and its subprocess
executor, via a shallow embedding of the Go source into Lean.

The embedding models:
- `internal/executor` (`RealExecutor.Execute`, `RealExecutor.ExecuteAndCapture`,
  `summarizedArgs`): external process behaviour (trace-write result, start
  result, wait result, output result) is supplied as explicit environment
  data, and the functions compute the returned error/captured text plus a
  record of which effects were performed.
- `cmd/update_prs` (`onlyOne`, `validateFlags`, `runClose`): the campaign,
  per-repository filesystem state and the result of `gh.ClosePullRequest`
  are supplied as data; `runClose` computes the emitted log events and the
  final counters.

Errors are modelled as their message strings. Argument length is measured
in UTF-8 bytes, matching Go's `len` on a string.
-/

namespace Turbolift

abbrev Err := String

/-! ## Executor (internal/executor/executor.go) -/

/-- `summarizedArgs` from the executor: each argument longer than 30 bytes is
replaced by the literal `"..."`; the loop appends one entry per argument. -/
def summarizedArgs (args : List String) : List String :=
  args.foldl
    (fun result arg =>
      if arg.utf8ByteSize > 30 then result ++ ["..."] else result ++ [arg])
    []

/-- The executor record: `Verbose` mirrors the `RealExecutor.Verbose` field. -/
structure RealExecutor where
  Verbose : Bool

/-- `NewRealExecutor` constructs the executor with verbose tracing enabled. -/
def NewRealExecutor : RealExecutor := ⟨true⟩

/-- Environment for one `Execute` invocation: the outcome of writing the
trace line to the sink, of `command.Start()`, and of `command.Wait()`
(`waitErr = some e` models a non-zero exit / wait failure). -/
structure ProcBehavior where
  writeErr : Option Err
  startErr : Option Err
  waitErr : Option Err

/-- What one `Execute` invocation did: the argument list held by the
constructed command (and hence passed to the spawned process), whether a
trace line was attempted and with which redacted arguments, whether
`command.Start()` was invoked, and the returned error (`none` = nil). -/
structure ExecuteResult where
  cmdArgs : List String
  traceAttempted : Bool
  traceArgs : List String
  startAttempted : Bool
  err : Option Err

/-- The start/wait tail of `Execute`: `command.Start()` then `command.Wait()`,
returning the first error encountered. -/
def runStartWait (r : ExecuteResult) (beh : ProcBehavior) : ExecuteResult :=
  match beh.startErr with
  | some serr => { r with startAttempted := true, err := some serr }
  | none =>
    match beh.waitErr with
    | some werr => { r with startAttempted := true, err := some werr }
    | none => { r with startAttempted := true, err := none }

/-- `RealExecutor.Execute`: builds the command with the unmodified `args`,
writes the verbose trace line (with `summarizedArgs`) when `Verbose` is set —
returning the write error if that write fails, before starting the process —
then starts and waits for the process. -/
def RealExecutor.Execute (e : RealExecutor) (beh : ProcBehavior)
    (workingDir name : String) (args : List String) : ExecuteResult :=
  let base : ExecuteResult :=
    { cmdArgs := args, traceAttempted := false, traceArgs := []
      startAttempted := false, err := none }
  if e.Verbose then
    match beh.writeErr with
    | some werr =>
      { base with traceAttempted := true, traceArgs := summarizedArgs args
                  err := some werr }
    | none =>
      runStartWait
        { base with traceAttempted := true, traceArgs := summarizedArgs args }
        beh
  else
    runStartWait base beh

/-- The result of Go's `command.Output()` as seen by `ExecuteAndCapture`:
success with captured stdout, an `*exec.ExitError` (non-zero exit) with the
captured stdout, captured stderr and the error's message, or any other error
with whatever stdout was captured so far. -/
inductive OutputResult
  | success (stdout : String)
  | exitError (stdout : String) (stderrText : String) (msg : Err)
  | otherError (stdoutSoFar : String) (e : Err)

/-- Environment for one `ExecuteAndCapture` invocation. -/
structure CaptureBehavior where
  writeErr : Option Err
  outputResult : OutputResult

/-- What one `ExecuteAndCapture` invocation did: the command's argument list,
whether `command.Output()` was invoked, the returned captured text and the
returned error (`none` = nil). -/
structure CaptureResult where
  cmdArgs : List String
  outputInvoked : Bool
  captured : String
  err : Option Err

/-- The `command.Output()` tail of `ExecuteAndCapture`: on success return the
captured stdout; on an `*exec.ExitError` return the captured stderr together
with `fmt.Errorf("error: %w. Stderr: %s", exitErr, stdErr)`; on any other
error return the stdout captured so far and the error unchanged. -/
def runOutput (args : List String) (o : OutputResult) : CaptureResult :=
  match o with
  | .success stdout =>
    { cmdArgs := args, outputInvoked := true, captured := stdout, err := none }
  | .exitError _ stderrText msg =>
    { cmdArgs := args, outputInvoked := true, captured := stderrText
      err := some ("error: " ++ msg ++ ". Stderr: " ++ stderrText) }
  | .otherError stdoutSoFar e =>
    { cmdArgs := args, outputInvoked := true, captured := stdoutSoFar
      err := some e }

/-- `RealExecutor.ExecuteAndCapture`: writes the verbose trace line when
`Verbose` is set — returning `("", err)` if that write fails, before running
the process — then runs `command.Output()` and classifies its result. -/
def RealExecutor.ExecuteAndCapture (e : RealExecutor) (beh : CaptureBehavior)
    (workingDir name : String) (args : List String) : CaptureResult :=
  if e.Verbose then
    match beh.writeErr with
    | some werr =>
      { cmdArgs := args, outputInvoked := false, captured := "", err := some werr }
    | none => runOutput args beh.outputResult
  else
    runOutput args beh.outputResult

/-! ## update-prs command (cmd/update_prs/update_prs.go) -/

/-- One repository of the campaign, with its derived local clone path. -/
structure Repo where
  FullRepoName : String
  FullRepoPath : String
deriving DecidableEq

/-- The result of `gh.ClosePullRequest` for one repository: nil error,
a `*github.NoPRFoundError`, or any other error. -/
inductive CloseResult
  | ok
  | noPRFound (msg : Err)
  | otherErr (msg : Err)
deriving DecidableEq

/-- One repository together with the environment `runClose` observes for it:
whether its clone directory exists on disk (`os.Stat`), and what
`gh.ClosePullRequest` returns when invoked. -/
structure RepoStep where
  repo : Repo
  dirExists : Bool
  closeResult : CloseResult
deriving DecidableEq

/-- A campaign as returned by `campaign.OpenCampaign`: its name and its
ordered repository list (each bundled with its observed environment). -/
structure Campaign where
  name : String
  steps : List RepoStep
deriving DecidableEq

/-- Tri-state classification of one repository's processing. -/
inductive Outcome
  | done
  | skipped
  | errored
deriving DecidableEq

/-- Observable events of a `runClose` run, in emission order: activity
start/success/warning/failure lines, an invocation of `gh.ClosePullRequest`,
an invocation of the confirmation prompt, and the two aggregate summary
styles (`logger.Successf` / `logger.Warnf`). -/
inductive LogEvent
  | activityStart (message : String)
  | activitySuccess
  | activityWarn (message : String)
  | activityFailure (message : String)
  | closePRCall (repoPath campaignName : String)
  | askConfirm (question : String)
  | summarySuccess (doneCount skippedCount : Nat)
  | summaryWarn (doneCount skippedCount errorCount : Nat)
deriving DecidableEq

/-- The three counters accumulated by the `runClose` loop. -/
structure Counters where
  doneCount : Nat
  skippedCount : Nat
  errorCount : Nat
deriving DecidableEq

/-- The effect of classifying one repository on the counters: exactly the
matching counter is incremented by one. -/
def stepCounters (c : Counters) (o : Outcome) : Counters :=
  match o with
  | .done => { c with doneCount := c.doneCount + 1 }
  | .skipped => { c with skippedCount := c.skippedCount + 1 }
  | .errored => { c with errorCount := c.errorCount + 1 }

/-- Result of processing a single repository inside the loop body. -/
structure StepResult where
  outcome : Outcome
  actionInvoked : Bool
  events : List LogEvent

/-- The `runClose` loop body for one repository: announce the activity; if
the clone directory does not exist, warn and skip without calling
`gh.ClosePullRequest`; otherwise call it and classify nil as done,
`NoPRFoundError` as skipped (warning), any other error as errored (failure). -/
def processRepo (campaignName : String) (s : RepoStep) : StepResult :=
  let start := LogEvent.activityStart ("Closing PR in " ++ s.repo.FullRepoName)
  if s.dirExists = false then
    { outcome := .skipped, actionInvoked := false
      events := [start,
        .activityWarn ("Directory " ++ s.repo.FullRepoPath
          ++ " does not exist - has it been cloned?")] }
  else
    match s.closeResult with
    | .ok =>
      { outcome := .done, actionInvoked := true
        events := [start, .closePRCall s.repo.FullRepoPath campaignName,
          .activitySuccess] }
    | .noPRFound m =>
      { outcome := .skipped, actionInvoked := true
        events := [start, .closePRCall s.repo.FullRepoPath campaignName,
          .activityWarn m] }
    | .otherErr m =>
      { outcome := .errored, actionInvoked := true
        events := [start, .closePRCall s.repo.FullRepoPath campaignName,
          .activityFailure m] }

/-- The `runClose` iteration over `dir.Repos`: sequential fold, accumulating
counters and emitted events. -/
def closeLoop (campaignName : String) (steps : List RepoStep) :
    Counters × List LogEvent :=
  steps.foldl
    (fun acc s =>
      (stepCounters acc.1 (processRepo campaignName s).outcome,
        acc.2 ++ (processRepo campaignName s).events))
    (⟨0, 0, 0⟩, [])

/-- `runClose`: read the campaign (failure ends the run), ask for
confirmation unless `yesFlag` is set (a declined confirmation ends the run
with nothing processed), run the loop, then emit exactly one aggregate
summary — success-styled when `errorCount == 0`, warning-styled otherwise.
Returns the emitted events and the final counters. -/
def runClose (yesFlag : Bool) (openResult : Except Err Campaign)
    (confirmAnswer : Bool) : List LogEvent × Counters :=
  match openResult with
  | .error e =>
    ([.activityStart "Reading campaign data", .activityFailure e], ⟨0, 0, 0⟩)
  | .ok dir =>
    let pre : List LogEvent :=
      [.activityStart "Reading campaign data", .activitySuccess]
    let question := "Close all PRs from the " ++ dir.name ++ " campaign?"
    if yesFlag = false ∧ confirmAnswer = false then
      (pre ++ [.askConfirm question], ⟨0, 0, 0⟩)
    else
      let confirmEvents : List LogEvent :=
        if yesFlag then [] else [.askConfirm question]
      let r := closeLoop dir.name dir.steps
      let summaryEvent : LogEvent :=
        if r.1.errorCount == 0 then
          .summarySuccess r.1.doneCount r.1.skippedCount
        else
          .summaryWarn r.1.doneCount r.1.skippedCount r.1.errorCount
      (pre ++ confirmEvents ++ r.2 ++ [summaryEvent], r.1)

/-- `onlyOne`: counts the false and true entries with a two-bucket counter
(mirroring the Go `map[bool]int`) and checks that exactly one entry is true. -/
def onlyOne (args : List Bool) : Bool :=
  let b :=
    args.foldl
      (fun (b : Nat × Nat) v => if v then (b.1, b.2 + 1) else (b.1 + 1, b.2))
      (0, 0)
  b.2 == 1

/-- `validateFlags`: configuration error unless exactly one action flag of
the (currently singleton) mutually-exclusive set is true. -/
def validateFlags (closeFlag : Bool) : Option Err :=
  if !(onlyOne [closeFlag]) then
    some "update-prs needs one and only one action flag"
  else
    none

/-! ## Derived observation functions and fixtures -/

/-- A concrete environment in which the verbose trace write fails. -/
def writeFailBeh : ProcBehavior := ⟨some "write failed", none, none⟩

/-- The outcome the loop assigns to each repository, in list order. -/
def outcomesOf (campaignName : String) (steps : List RepoStep) : List Outcome :=
  steps.map fun s => (processRepo campaignName s).outcome

/-- The events the loop emits, in emission order. -/
def eventsOf (campaignName : String) (steps : List RepoStep) : List LogEvent :=
  (steps.map fun s => (processRepo campaignName s).events).flatten

/-- Whether an event is one of the two aggregate summary lines. -/
def isSummaryEvent : LogEvent → Bool
  | .summarySuccess _ _ => true
  | .summaryWarn _ _ _ => true
  | _ => false

/-- Whether an event is an invocation of the confirmation prompt. -/
def isAskConfirm : LogEvent → Bool
  | .askConfirm _ => true
  | _ => false

/-- Fixture repositories, following the spec's end-to-end example. -/
def repoA : Repo := ⟨"org/a", "work/rename-foo/org/a"⟩

def repoB : Repo := ⟨"org/b", "work/rename-foo/org/b"⟩

def repoC : Repo := ⟨"org/c", "work/rename-foo/org/c"⟩

/-- Fixture steps: A has no local clone, B's close succeeds, C's close fails
with a generic error. -/
def demoSteps : List RepoStep :=
  [⟨repoA, false, .ok⟩, ⟨repoB, true, .ok⟩, ⟨repoC, true, .otherErr "boom"⟩]

/-- Fixture campaign for concrete witnesses. -/
def demoCampaign : Campaign := ⟨"rename-foo", demoSteps⟩

/-! ## Helper lemmas -/

/-- The redaction fold, started from any accumulator, appends the positional
redaction of the argument list. -/
theorem summarizedArgs_foldl (args : List String) (acc : List String) :
    args.foldl
      (fun result arg =>
        if arg.utf8ByteSize > 30 then result ++ ["..."] else result ++ [arg])
      acc
      = acc ++ args.map (fun arg => if arg.utf8ByteSize > 30 then "..." else arg) := by
  induction args generalizing acc with
  | nil => simp
  | cons a t ih =>
    by_cases h : a.utf8ByteSize > 30 <;> simp [List.foldl, h, ih]

/-- `summarizedArgs` is the positional redaction map. -/
theorem summarizedArgs_eq_map (args : List String) :
    summarizedArgs args
      = args.map (fun arg => if arg.utf8ByteSize > 30 then "..." else arg) := by
  simpa using summarizedArgs_foldl args []

/-- `Execute` always builds the command with the unmodified argument list. -/
theorem execute_cmdArgs (e : RealExecutor) (beh : ProcBehavior)
    (workingDir nm : String) (args : List String) :
    (e.Execute beh workingDir nm args).cmdArgs = args := by
  cases e with
  | mk v =>
    cases v <;> rcases hw : beh.writeErr with _ | w <;>
        rcases hs : beh.startErr with _ | s <;>
        rcases hb : beh.waitErr with _ | b <;>
      simp [RealExecutor.Execute, runStartWait, hw, hs, hb]

/-- When the trace write cannot fail (non-verbose, or a sink that accepts the
write), `ExecuteAndCapture` is exactly the `command.Output()` classification. -/
theorem executeAndCapture_eq_runOutput (e : RealExecutor)
    (beh : CaptureBehavior) (wd nm : String) (args : List String)
    (hw : e.Verbose = false ∨ beh.writeErr = none) :
    e.ExecuteAndCapture beh wd nm args = runOutput args beh.outputResult := by
  rcases hw with h | h <;> simp [RealExecutor.ExecuteAndCapture, h]

/-! ## Claims about the executor -/

/-- C3: the redacted argument list used for the verbose trace has the same
length as the real list, agrees with it at every position whose argument is
at most 30 bytes long, and carries the literal `"..."` at every position
whose argument is longer than 30 bytes; the argument list given to the
spawned process is the unmodified real list. -/
theorem summarizedArgs_redaction (e : RealExecutor) (beh : ProcBehavior)
    (workingDir nm : String) (args : List String) :
    (summarizedArgs args).length = args.length ∧
    (∀ (i : Nat) (a : String), args[i]? = some a →
      (a.utf8ByteSize ≤ 30 → (summarizedArgs args)[i]? = some a) ∧
      (a.utf8ByteSize > 30 → (summarizedArgs args)[i]? = some "...")) ∧
    (e.Execute beh workingDir nm args).cmdArgs = args := by
  rw [summarizedArgs_eq_map]
  refine ⟨List.length_map _ _, fun i a ha => ?_, execute_cmdArgs e beh workingDir nm args⟩
  rw [List.getElem?_map, ha]
  constructor
  · intro hle
    have : ¬ a.utf8ByteSize > 30 := by omega
    simp [this]
  · intro hgt
    simp [hgt]

/-- C3 witness: a 3-byte argument passes through verbatim and a 31-byte
argument is redacted to the placeholder. -/
theorem summarizedArgs_redaction_witness :
    (summarizedArgs ["abc", "0123456789012345678901234567890"])[0]? = some "abc" ∧
    (summarizedArgs ["abc", "0123456789012345678901234567890"])[1]? = some "..." := by
  have h := summarizedArgs_redaction ⟨true⟩ ⟨none, none, none⟩ "wd" "prog"
    ["abc", "0123456789012345678901234567890"]
  exact ⟨(h.2.1 0 "abc" rfl).1 (by decide), (h.2.1 1 _ rfl).2 (by decide)⟩

/-- C4: when the process exits non-zero, `ExecuteAndCapture` returns the
captured standard-error text as the captured text, and an error whose
formatted message embeds the underlying error's message and that same
standard-error text; when the process succeeds it returns the captured
standard output and a nil error. -/
theorem executeAndCapture_exit_classification (e : RealExecutor)
    (beh : CaptureBehavior) (wd nm : String) (args : List String)
    (hw : e.Verbose = false ∨ beh.writeErr = none) :
    (∀ so se msg, beh.outputResult = .exitError so se msg →
      (e.ExecuteAndCapture beh wd nm args).captured = se ∧
      (e.ExecuteAndCapture beh wd nm args).err =
        some ("error: " ++ msg ++ ". Stderr: " ++ se)) ∧
    (∀ so, beh.outputResult = .success so →
      (e.ExecuteAndCapture beh wd nm args).captured = so ∧
      (e.ExecuteAndCapture beh wd nm args).err = none) := by
  have hcap := executeAndCapture_eq_runOutput e beh wd nm args hw
  constructor
  · intro so se msg hout
    rw [hcap, hout]
    exact ⟨rfl, rfl⟩
  · intro so hout
    rw [hcap, hout]
    exact ⟨rfl, rfl⟩

/-- C4 witness: a concrete non-zero exit with stderr text `"oops"`. -/
theorem executeAndCapture_exit_classification_witness :
    (RealExecutor.ExecuteAndCapture ⟨true⟩
      ⟨none, .exitError "out" "oops" "exit status 1"⟩ "wd" "prog" []).captured = "oops" ∧
    (RealExecutor.ExecuteAndCapture ⟨true⟩
      ⟨none, .exitError "out" "oops" "exit status 1"⟩ "wd" "prog" []).err =
        some ("error: " ++ "exit status 1" ++ ". Stderr: " ++ "oops") := by
  have h := executeAndCapture_exit_classification ⟨true⟩
    ⟨none, .exitError "out" "oops" "exit status 1"⟩ "wd" "prog" [] (Or.inr rfl)
  exact h.1 "out" "oops" "exit status 1" rfl

/-- C5 counterexample: with verbose tracing on and a failing sink, `Execute`
returns a non-nil error although the process neither failed to start nor
exited non-zero (it was never started at all). -/
theorem execute_error_iff_counterexample :
    (RealExecutor.Execute ⟨true⟩ writeFailBeh "wd" "prog" []).err = some "write failed" ∧
    writeFailBeh.startErr = none ∧ writeFailBeh.waitErr = none :=
  ⟨rfl, rfl, rfl⟩

/-- C5 (amended): `Execute` returns a non-nil error if and only if the
process fails to start, or exits non-zero, or verbose mode is enabled and
writing the trace line to the sink fails. -/
theorem execute_error_iff (e : RealExecutor) (beh : ProcBehavior)
    (wd nm : String) (args : List String) :
    (e.Execute beh wd nm args).err ≠ none ↔
      ((e.Verbose = true ∧ beh.writeErr ≠ none) ∨
        beh.startErr ≠ none ∨ beh.waitErr ≠ none) := by
  cases e with
  | mk v =>
    cases v <;> rcases hw : beh.writeErr with _ | w <;>
        rcases hs : beh.startErr with _ | s <;>
        rcases hb : beh.waitErr with _ | b <;>
      simp [RealExecutor.Execute, runStartWait, hw, hs, hb]

/-- C9: in verbose mode, when writing the trace line fails, `Execute` returns
that write error without ever starting the process, and `ExecuteAndCapture`
returns an empty captured text and that write error without ever running the
process. -/
theorem verbose_write_failure (e : RealExecutor) (beh : ProcBehavior)
    (cbeh : CaptureBehavior) (wd nm : String) (args : List String) (w : Err)
    (hv : e.Verbose = true) :
    (beh.writeErr = some w →
      (e.Execute beh wd nm args).err = some w ∧
      (e.Execute beh wd nm args).startAttempted = false) ∧
    (cbeh.writeErr = some w →
      (e.ExecuteAndCapture cbeh wd nm args).captured = "" ∧
      (e.ExecuteAndCapture cbeh wd nm args).err = some w ∧
      (e.ExecuteAndCapture cbeh wd nm args).outputInvoked = false) := by
  refine ⟨fun hw => ?_, fun hw => ?_⟩ <;>
    simp [RealExecutor.Execute, RealExecutor.ExecuteAndCapture, hv, hw]

/-- C9 witness: a concrete failing sink write in verbose mode. -/
theorem verbose_write_failure_witness :
    (RealExecutor.Execute ⟨true⟩ ⟨some "boom", none, none⟩ "wd" "prog" []).startAttempted = false ∧
    (RealExecutor.ExecuteAndCapture ⟨true⟩ ⟨some "boom", .success "x"⟩ "wd" "prog" []).outputInvoked = false := by
  have h := verbose_write_failure ⟨true⟩ ⟨some "boom", none, none⟩
    ⟨some "boom", .success "x"⟩ "wd" "prog" [] "boom" rfl
  exact ⟨(h.1 rfl).2, (h.2 rfl).2.2⟩

/-- C10: when `command.Output()` fails with an error that is not a non-zero
exit, `ExecuteAndCapture` returns the standard output captured so far (not
standard error) and the error unmodified, with no formatted message. -/
theorem executeAndCapture_other_error (e : RealExecutor)
    (beh : CaptureBehavior) (wd nm : String) (args : List String)
    (hw : e.Verbose = false ∨ beh.writeErr = none) :
    ∀ out err0, beh.outputResult = .otherError out err0 →
      (e.ExecuteAndCapture beh wd nm args).captured = out ∧
      (e.ExecuteAndCapture beh wd nm args).err = some err0 := by
  intro out err0 hout
  rw [executeAndCapture_eq_runOutput e beh wd nm args hw, hout]
  exact ⟨rfl, rfl⟩

/-- C10 witness: a concrete start failure with partially captured stdout. -/
theorem executeAndCapture_other_error_witness :
    (RealExecutor.ExecuteAndCapture ⟨false⟩
      ⟨none, .otherError "" "exec: not found"⟩ "wd" "prog" []).captured = "" ∧
    (RealExecutor.ExecuteAndCapture ⟨false⟩
      ⟨none, .otherError "" "exec: not found"⟩ "wd" "prog" []).err = some "exec: not found" :=
  executeAndCapture_other_error ⟨false⟩ ⟨none, .otherError "" "exec: not found"⟩
    "wd" "prog" [] (Or.inl rfl) "" "exec: not found" rfl

/-! ## Helper lemmas for the batch engine -/

/-- The two-bucket counting fold of `onlyOne`, from any starting counts. -/
theorem onlyOne_foldl (args : List Bool) (a b : Nat) :
    args.foldl
      (fun (p : Nat × Nat) v => if v then (p.1, p.2 + 1) else (p.1 + 1, p.2))
      (a, b)
      = (a + args.count false, b + args.count true) := by
  induction args generalizing a b with
  | nil => simp
  | cons v t ih => cases v <;> simp [List.count_cons, ih] <;> omega

/-- `onlyOne` holds exactly when one entry is true. -/
theorem onlyOne_iff (args : List Bool) :
    onlyOne args = true ↔ args.count true = 1 := by
  unfold onlyOne
  rw [onlyOne_foldl]
  simp

/-- An outcome is exactly one of done, skipped or errored, so the three
counts of an outcome list sum to its length. -/
theorem count_outcomes_length (l : List Outcome) :
    l.count .done + l.count .skipped + l.count .errored = l.length := by
  induction l with
  | nil => simp
  | cons o t ih => cases o <;> simp [List.count_cons] <;> omega

/-- Unrolling the loop fold from any accumulated counters and events. -/
theorem closeLoop_foldl_eq (cn : String) (steps : List RepoStep)
    (c : Counters) (es : List LogEvent) :
    steps.foldl
      (fun acc s =>
        (stepCounters acc.1 (processRepo cn s).outcome,
          acc.2 ++ (processRepo cn s).events))
      (c, es)
      = (⟨c.doneCount + (outcomesOf cn steps).count .done,
          c.skippedCount + (outcomesOf cn steps).count .skipped,
          c.errorCount + (outcomesOf cn steps).count .errored⟩,
        es ++ eventsOf cn steps) := by
  induction steps generalizing c es with
  | nil => simp [outcomesOf, eventsOf]
  | cons s t ih =>
    simp only [List.foldl_cons]
    rw [ih]
    rcases ho : (processRepo cn s).outcome <;>
      simp [outcomesOf, eventsOf, stepCounters, ho, List.count_cons,
        Counters.mk.injEq, Prod.mk.injEq] <;>
      omega

/-- The loop's counters are the outcome counts and its events are the
per-repository events in order. -/
theorem closeLoop_eq (cn : String) (steps : List RepoStep) :
    closeLoop cn steps
      = (⟨(outcomesOf cn steps).count .done,
          (outcomesOf cn steps).count .skipped,
          (outcomesOf cn steps).count .errored⟩,
        eventsOf cn steps) := by
  have h := closeLoop_foldl_eq cn steps ⟨0, 0, 0⟩ []
  simpa [closeLoop] using h

/-- The loop body never emits a summary or confirmation event. -/
theorem processRepo_countP (cn : String) (s : RepoStep) :
    ((processRepo cn s).events).countP isSummaryEvent = 0 ∧
    ((processRepo cn s).events).countP isAskConfirm = 0 := by
  rcases s with ⟨r, de, cr⟩
  cases de <;> cases cr <;>
    simp [processRepo, isSummaryEvent, isAskConfirm, List.countP_cons]

/-- The whole loop never emits a summary or confirmation event. -/
theorem eventsOf_countP (cn : String) (steps : List RepoStep) :
    (eventsOf cn steps).countP isSummaryEvent = 0 ∧
    (eventsOf cn steps).countP isAskConfirm = 0 := by
  induction steps with
  | nil => simp [eventsOf]
  | cons s t ih =>
    have hs := processRepo_countP cn s
    simp only [eventsOf, List.map_cons, List.flatten_cons, List.countP_append]
    simp only [eventsOf] at ih
    omega

/-! ## Claims about the batch engine -/

/-- C1: for each repository, a missing clone directory yields Skipped with
the close action never invoked and only the skipped counter incremented;
otherwise the action is invoked and a nil result yields Done (done counter
incremented), a `NoPRFoundError` yields Skipped (skipped counter
incremented), and any other error yields Errored (error counter
incremented). -/
theorem outcome_classification (cn : String) (s : RepoStep) (c : Counters) :
    (s.dirExists = false →
      (processRepo cn s).outcome = .skipped ∧
      (processRepo cn s).actionInvoked = false ∧
      stepCounters c (processRepo cn s).outcome
        = ⟨c.doneCount, c.skippedCount + 1, c.errorCount⟩) ∧
    (s.dirExists = true →
      (processRepo cn s).actionInvoked = true ∧
      (s.closeResult = .ok →
        (processRepo cn s).outcome = .done ∧
        stepCounters c (processRepo cn s).outcome
          = ⟨c.doneCount + 1, c.skippedCount, c.errorCount⟩) ∧
      (∀ m, s.closeResult = .noPRFound m →
        (processRepo cn s).outcome = .skipped ∧
        stepCounters c (processRepo cn s).outcome
          = ⟨c.doneCount, c.skippedCount + 1, c.errorCount⟩) ∧
      (∀ m, s.closeResult = .otherErr m →
        (processRepo cn s).outcome = .errored ∧
        stepCounters c (processRepo cn s).outcome
          = ⟨c.doneCount, c.skippedCount, c.errorCount + 1⟩)) := by
  rcases s with ⟨r, de, cr⟩
  cases de <;> cases cr <;> simp [processRepo, stepCounters]

/-- C1 witness: a repository without a clone is skipped with no action call,
and one whose close succeeds is done. -/
theorem outcome_classification_witness :
    (processRepo "rename-foo" ⟨repoA, false, .ok⟩).outcome = .skipped ∧
    (processRepo "rename-foo" ⟨repoA, false, .ok⟩).actionInvoked = false ∧
    (processRepo "rename-foo" ⟨repoB, true, .ok⟩).outcome = .done := by
  have h1 := outcome_classification "rename-foo" ⟨repoA, false, .ok⟩ ⟨0, 0, 0⟩
  have h2 := outcome_classification "rename-foo" ⟨repoB, true, .ok⟩ ⟨0, 0, 0⟩
  exact ⟨(h1.1 rfl).1, (h1.1 rfl).2.1, ((h2.2 rfl).2.1 rfl).1⟩

/-- C2: after the loop, each counter equals the number of repositories with
the corresponding outcome, the three counters sum to the number of
repositories (each processed exactly once, in order, with exactly one
counter incremented and none decremented, never aborting early), and all
per-repository events are emitted in list order. -/
theorem loop_counter_invariant (cn : String) (steps : List RepoStep) :
    (closeLoop cn steps).1.doneCount = (outcomesOf cn steps).count .done ∧
    (closeLoop cn steps).1.skippedCount = (outcomesOf cn steps).count .skipped ∧
    (closeLoop cn steps).1.errorCount = (outcomesOf cn steps).count .errored ∧
    (closeLoop cn steps).1.doneCount + (closeLoop cn steps).1.skippedCount
        + (closeLoop cn steps).1.errorCount = steps.length ∧
    (closeLoop cn steps).2 = eventsOf cn steps := by
  rw [closeLoop_eq]
  refine ⟨rfl, rfl, rfl, ?_, rfl⟩
  have h := count_outcomes_length (outcomesOf cn steps)
  simpa [outcomesOf] using h

/-- C6: `onlyOne` accepts exactly the flag lists with precisely one true
entry — zero or two-or-more true flags are rejected — and `validateFlags`
returns nil exactly when its (single) action flag passes that check, and a
configuration error otherwise. -/
theorem flag_validation (flags : List Bool) (closeFlag : Bool) :
    ((flags.count true = 0 ∨ 2 ≤ flags.count true) → onlyOne flags = false) ∧
    (onlyOne flags = true ↔ flags.count true = 1) ∧
    (validateFlags closeFlag = none ↔ [closeFlag].count true = 1) ∧
    (validateFlags closeFlag
        = some "update-prs needs one and only one action flag"
      ↔ [closeFlag].count true ≠ 1) := by
  refine ⟨?_, onlyOne_iff flags, ?_, ?_⟩
  · intro h
    rcases hb : onlyOne flags with _ | _
    · rfl
    · have := (onlyOne_iff flags).1 hb
      omega
  · cases closeFlag <;> simp [validateFlags, onlyOne]
  · cases closeFlag <;> simp [validateFlags, onlyOne]

/-- When confirmation is bypassed or granted, `runClose` asks (or not), runs
the loop, and appends exactly the aggregate summary event. -/
theorem runClose_proceeds (dir : Campaign) (yes confirm : Bool)
    (h : yes = true ∨ confirm = true) :
    runClose yes (.ok dir) confirm
      = ([.activityStart "Reading campaign data", .activitySuccess]
          ++ (if yes then [] else
              [.askConfirm ("Close all PRs from the " ++ dir.name ++ " campaign?")])
          ++ (closeLoop dir.name dir.steps).2
          ++ [if (closeLoop dir.name dir.steps).1.errorCount == 0 then
                .summarySuccess (closeLoop dir.name dir.steps).1.doneCount
                  (closeLoop dir.name dir.steps).1.skippedCount
              else
                .summaryWarn (closeLoop dir.name dir.steps).1.doneCount
                  (closeLoop dir.name dir.steps).1.skippedCount
                  (closeLoop dir.name dir.steps).1.errorCount],
        (closeLoop dir.name dir.steps).1) := by
  rcases h with h | h <;> subst h
  · simp [runClose]
  · cases yes <;> simp [runClose]

/-- C7: with the skip-confirmation flag set, the confirmation oracle is
never invoked and the run proceeds directly to the iteration and its
summary; without the flag, a declined confirmation ends the run right after
the prompt with zero repositories processed, all counters zero and no
summary emitted. -/
theorem confirmation_gate (dir : Campaign) (yes confirm : Bool) :
    (yes = true →
      runClose yes (.ok dir) confirm
        = ([.activityStart "Reading campaign data", .activitySuccess]
            ++ (closeLoop dir.name dir.steps).2
            ++ [if (closeLoop dir.name dir.steps).1.errorCount == 0 then
                  .summarySuccess (closeLoop dir.name dir.steps).1.doneCount
                    (closeLoop dir.name dir.steps).1.skippedCount
                else
                  .summaryWarn (closeLoop dir.name dir.steps).1.doneCount
                    (closeLoop dir.name dir.steps).1.skippedCount
                    (closeLoop dir.name dir.steps).1.errorCount],
          (closeLoop dir.name dir.steps).1) ∧
      (runClose yes (.ok dir) confirm).1.countP isAskConfirm = 0) ∧
    (yes = false → confirm = false →
      runClose yes (.ok dir) confirm
        = ([.activityStart "Reading campaign data", .activitySuccess,
            .askConfirm ("Close all PRs from the " ++ dir.name ++ " campaign?")],
          ⟨0, 0, 0⟩) ∧
      (runClose yes (.ok dir) confirm).1.countP isSummaryEvent = 0) := by
  constructor
  · intro hy
    subst hy
    have hrc := runClose_proceeds dir true confirm (Or.inl rfl)
    rw [if_pos rfl] at hrc
    constructor
    · rw [hrc]
      simp
    · rw [hrc]
      rcases hb : ((closeLoop dir.name dir.steps).1.errorCount == 0) <;>
        simp [hb, List.countP_append, List.countP_cons, isAskConfirm,
          closeLoop_eq, (eventsOf_countP dir.name dir.steps).2]
  · intro hy hc
    subst hy
    subst hc
    constructor
    · simp [runClose]
    · simp [runClose, List.countP_cons, isSummaryEvent]

/-- C7 witness: with the flag set on the demo campaign the prompt never
fires; with the flag unset and a declined prompt the run stops with zero
counters and only the three pre-loop events. -/
theorem confirmation_gate_witness :
    (runClose true (.ok demoCampaign) false).1.countP isAskConfirm = 0 ∧
    runClose false (.ok demoCampaign) false
      = ([.activityStart "Reading campaign data", .activitySuccess,
          .askConfirm ("Close all PRs from the " ++ demoCampaign.name ++ " campaign?")],
        ⟨0, 0, 0⟩) := by
  have h1 := confirmation_gate demoCampaign true false
  have h2 := confirmation_gate demoCampaign false false
  exact ⟨(h1.1 rfl).2, (h2.2 rfl rfl).1⟩

/-- C8: once the loop has run, exactly one aggregate summary event is
emitted, as the last event: success-styled with the done and skipped counts
when the error count is zero, warning-styled with the error count added
otherwise. -/
theorem aggregate_summary (dir : Campaign) (yes confirm : Bool)
    (h : yes = true ∨ confirm = true) :
    (runClose yes (.ok dir) confirm).1.countP isSummaryEvent = 1 ∧
    ((runClose yes (.ok dir) confirm).2.errorCount = 0 →
      (runClose yes (.ok dir) confirm).1.getLast?
        = some (.summarySuccess (runClose yes (.ok dir) confirm).2.doneCount
            (runClose yes (.ok dir) confirm).2.skippedCount)) ∧
    ((runClose yes (.ok dir) confirm).2.errorCount ≠ 0 →
      (runClose yes (.ok dir) confirm).1.getLast?
        = some (.summaryWarn (runClose yes (.ok dir) confirm).2.doneCount
            (runClose yes (.ok dir) confirm).2.skippedCount
            (runClose yes (.ok dir) confirm).2.errorCount)) := by
  have hrc := runClose_proceeds dir yes confirm h
  rw [hrc]
  refine ⟨?_, ?_, ?_⟩
  · cases yes <;>
      rcases hb : ((closeLoop dir.name dir.steps).1.errorCount == 0) <;>
      simp [hb, List.countP_append, List.countP_cons, isSummaryEvent,
        closeLoop_eq, (eventsOf_countP dir.name dir.steps).1]
  · intro h0
    simp only at h0
    rw [List.getLast?_concat]
    simp [h0]
  · intro h0
    simp only at h0
    rw [List.getLast?_concat]
    have hb : ((closeLoop dir.name dir.steps).1.errorCount == 0) = false := by
      simpa using h0
    simp [hb]

/-- C8 witness: on the demo campaign (one done, one skipped, one errored)
exactly one summary is emitted, last, warning-styled. -/
theorem aggregate_summary_witness :
    (runClose true (.ok demoCampaign) false).1.countP isSummaryEvent = 1 ∧
    (runClose true (.ok demoCampaign) false).1.getLast?
      = some (.summaryWarn (runClose true (.ok demoCampaign) false).2.doneCount
          (runClose true (.ok demoCampaign) false).2.skippedCount
          (runClose true (.ok demoCampaign) false).2.errorCount) := by
  have h := aggregate_summary demoCampaign true false (Or.inl rfl)
  exact ⟨h.1, h.2.2 (by decide)⟩

/-- C6 witness: two true flags are rejected, a single true flag passes the
validator. -/
theorem flag_validation_witness :
    onlyOne [true, true] = false ∧ validateFlags true = none := by
  have h1 := flag_validation [true, true] true
  exact ⟨h1.1 (Or.inr (by decide)), (h1.2.2.1).2 (by decide)⟩

end Turbolift
